import Mathlib

/-!
# Product handler over a key-value table store

A shallow embedding of `main.go`: the Lambda handler `handleRequest`, the
repository `dynamoDBRepo` (`Save`, `FindAll`, `FindByID`, `Delete`, `Put`) and
the parts of the libraries they call.

Conventions of the embedding.

* A `float32` value is represented by the rational it denotes (`ℚ`). Turning
  decimal text into a `float32` (rounding to 24 bits, range overflow) is the
  work of a `FloatFormat`: `ieee` is the binary32 format of the machine,
  `exactArithmetic` is the idealisation in which every number is a float. The
  arithmetic of the seeding loop (`seedProduct`) is exact.
* A Go `error` is represented by its message (`Err`); `nil` is `none`.
* A Go `map[string]T` is an association list; reading a missing key gives the
  zero value.
* The table store is a state machine `Backend σ`; every client call is
  recorded in `World.calls`, every `fmt.Print*` in `World.stdout`.
* `panic` is an explicit outcome (`Outcome.panic`).
* The values drawn from `faker` and `math/rand` during one invocation are an
  input (`SeedDraw`, indexed by the loop counter).
* `createDynamoDBClient` builds a client value and talks to nobody; it has no
  counterpart here.
-/

set_option autoImplicit false
set_option linter.dupNamespace false

namespace ProductApi

/-- The message of a Go `error` value. -/
abbrev Err := String

/-! ## Data model -/

/-- Source: `type Product struct`. -/
structure Product where
  Id : String
  Name : String
  Description : String
  Price : ℚ
  Rate : ℚ
  Image : String
  deriving DecidableEq, Repr

/-- The zero value `Product{}`. -/
def Product.zero : Product :=
  { Id := "", Name := "", Description := "", Price := 0, Rate := 0, Image := "" }

/-- Source: `type Message struct`. -/
structure Message where
  Message : String
  deriving DecidableEq, Repr

/-- Reading `m[k]` from a Go `map[string]string`: the zero value when absent. -/
def mapGet (m : List (String × String)) (k : String) : String :=
  match m.lookup k with
  | some v => v
  | none => ""

/-- The fields of `events.APIGatewayProxyRequest`. The request context, which
the handler never reads, is kept as the JSON text `json.Marshal` writes for
it. -/
structure Request where
  Resource : String
  Path : String
  HTTPMethod : String
  Headers : List (String × String)
  MultiValueHeaders : List (String × List String)
  QueryStringParameters : List (String × String)
  MultiValueQueryStringParameters : List (String × List String)
  PathParameters : List (String × String)
  StageVariables : List (String × String)
  RequestContext : String
  Body : String
  IsBase64Encoded : Bool
  deriving DecidableEq, Repr

/-- The fields of `events.APIGatewayProxyResponse`. -/
structure Response where
  StatusCode : Int := 0
  Headers : List (String × String) := []
  MultiValueHeaders : List (String × List String) := []
  Body : String := ""
  IsBase64Encoded : Bool := false
  deriving DecidableEq, Repr

/-- A `dynamodb.AttributeValue`, for the scalar kinds. A number attribute is
carried on the wire as decimal text; it is represented by the number that text
denotes. -/
inductive AttributeValue where
  | S (s : String)
  | N (n : ℚ)
  | NULL
  | BOOL (b : Bool)
  deriving DecidableEq, Repr

/-- An item: `map[string]*dynamodb.AttributeValue`. -/
abbrev Item := List (String × AttributeValue)

/-! ## Numbers: decimal text to float32, float32 to decimal text -/

/-- Round to the nearest integer, ties to even. -/
def roundHalfEven (q : ℚ) : ℤ :=
  if q - ⌊q⌋ < 1 / 2 then ⌊q⌋
  else if 1 / 2 < q - ⌊q⌋ then ⌊q⌋ + 1
  else if ⌊q⌋ % 2 = 0 then ⌊q⌋
  else ⌊q⌋ + 1

/-- The number of binary digits of `n`, for `n` at most the fuel. -/
def bitLength : Nat → Nat → Nat
  | 0, _ => 0
  | fuel + 1, n => if n = 0 then 0 else bitLength fuel (n / 2) + 1

/-- The exponent of the highest binary digit of a positive natural number. -/
def log2 (n : Nat) : ℤ :=
  (bitLength n n : ℤ) - 1

/-- For `a > 0`, the greatest `e` with `2 ^ e ≤ a`: the difference of the
exponents of numerator and denominator, or one less. -/
def floorLog2 (a : ℚ) : ℤ :=
  if (2 : ℚ) ^ (log2 a.num.natAbs - log2 a.den) ≤ a then log2 a.num.natAbs - log2 a.den
  else log2 a.num.natAbs - log2 a.den - 1

/-- The nearest binary floating-point number with `prec` significant bits and
least exponent `emin` (below it the numbers are subnormal), ties to even, the
range taken as unbounded. -/
def roundToBinary (prec : ℕ) (emin : ℤ) (q : ℚ) : ℚ :=
  if q = 0 then 0
  else
    (roundHalfEven (q / (2 : ℚ) ^ (max (floorLog2 |q|) emin - ((prec : ℤ) - 1))) : ℚ) *
      (2 : ℚ) ^ (max (floorLog2 |q|) emin - ((prec : ℤ) - 1))

/-- The constant `math.MaxFloat32`: `(2 - 2^-23) * 2^127`. -/
def maxFloat32 : ℚ :=
  (2 ^ 24 - 1) * 2 ^ 104

/-- How decimal text becomes a `float32`, in the two ways the libraries do it;
`none` is a number beyond the range. -/
structure FloatFormat where
  /-- Library `strconv.ParseFloat(s, 32)`, as `encoding/json` calls it. -/
  parseFloat32 : ℚ → Option ℚ
  /-- Library `strconv.ParseFloat(s, 64)`, then the range check
  `OverflowFloat` and the conversion `SetFloat` on a `float32`, as
  `dynamodbattribute` does it. -/
  parseFloat64AsFloat32 : ℚ → Option ℚ

/-- The binary32 format: the text is rounded to 24 bits and a result beyond
`math.MaxFloat32` is out of range; the attribute decoder rounds to binary64
first, rejects what is then beyond `math.MaxFloat32`, and rounds again. (A
number attribute never exceeds the binary64 range: the table store holds no
number above `1e126`.) -/
def ieee : FloatFormat where
  parseFloat32 := fun q =>
    if |roundToBinary 24 (-126) q| ≤ maxFloat32 then some (roundToBinary 24 (-126) q) else none
  parseFloat64AsFloat32 := fun q =>
    if |roundToBinary 53 (-1022) q| ≤ maxFloat32 then
      some (roundToBinary 24 (-126) (roundToBinary 53 (-1022) q))
    else none

/-- Exact arithmetic: every number is a float, nothing is rounded and nothing
is out of range. -/
def exactArithmetic : FloatFormat where
  parseFloat32 := fun q => some q
  parseFloat64AsFloat32 := fun q => some q

/-- Library `fmt.Sprintf("%f", x)` on a `float32`: the verb writes six digits
after the decimal point; the result is the number that text denotes. -/
def sprintfF (x : ℚ) : ℚ :=
  (roundHalfEven (x * 1000000) : ℚ) / 1000000

/-! ## JSON text (encoding/json) -/

/-- A parsed JSON document; a number keeps its text. -/
inductive JSON where
  | null
  | bool (b : Bool)
  | num (text : String) (q : ℚ)
  | str (s : String)
  | arr (xs : List JSON)
  | obj (kvs : List (String × JSON))

/-- Skip JSON white space. -/
def skipWs : List Char → List Char
  | [] => []
  | c :: cs => if c = ' ' ∨ c = '\t' ∨ c = '\n' ∨ c = '\r' then skipWs cs else c :: cs

/-- Value of a hexadecimal digit. -/
def hexVal (c : Char) : Option Nat :=
  if '0' ≤ c ∧ c ≤ '9' then some (c.toNat - 48)
  else if 'a' ≤ c ∧ c ≤ 'f' then some (c.toNat - 87)
  else if 'A' ≤ c ∧ c ≤ 'F' then some (c.toNat - 55)
  else none

/-- Four hexadecimal digits at the head of the input. -/
def hex4 : List Char → Option (Nat × List Char)
  | a :: b :: c :: d :: r =>
    match hexVal a, hexVal b, hexVal c, hexVal d with
    | some x, some y, some z, some w => some (((x * 16 + y) * 16 + z) * 16 + w, r)
    | _, _, _, _ => none
  | _ => none

/-- The single-character escapes of a JSON string. -/
def unescape (c : Char) : Option Char :=
  if c = '"' then some '"'
  else if c = '\\' then some '\\'
  else if c = '/' then some '/'
  else if c = 'b' then some (Char.ofNat 8)
  else if c = 'f' then some (Char.ofNat 12)
  else if c = 'n' then some '\n'
  else if c = 'r' then some '\r'
  else if c = 't' then some '\t'
  else none

/-- Scan the inside of a JSON string up to its closing quote. A `\u` escape
that is half of a surrogate pair without its partner decodes to U+FFFD. -/
def scanString : Nat → List Char → List Char → Option (String × List Char)
  | 0, _, _ => none
  | _ + 1, [], _ => none
  | fuel + 1, c :: r, acc =>
    if c = '"' then some (String.mk acc.reverse, r)
    else if c = '\\' then
      match r with
      | [] => none
      | e :: r1 =>
        if e = 'u' then
          match hex4 r1 with
          | none => none
          | some (n, r2) =>
            if 0xD800 ≤ n ∧ n < 0xDC00 then
              match r2 with
              | '\\' :: 'u' :: r3 =>
                match hex4 r3 with
                | some (m, r4) =>
                  if 0xDC00 ≤ m ∧ m < 0xE000 then
                    scanString fuel r4
                      (Char.ofNat (0x10000 + (n - 0xD800) * 0x400 + (m - 0xDC00)) :: acc)
                  else scanString fuel r2 (Char.ofNat 0xFFFD :: acc)
                | none => scanString fuel r2 (Char.ofNat 0xFFFD :: acc)
              | _ => scanString fuel r2 (Char.ofNat 0xFFFD :: acc)
            else if 0xDC00 ≤ n ∧ n < 0xE000 then scanString fuel r2 (Char.ofNat 0xFFFD :: acc)
            else scanString fuel r2 (Char.ofNat n :: acc)
        else
          match unescape e with
          | some ch => scanString fuel r1 (ch :: acc)
          | none => none
    else if c.toNat < 32 then none
    else scanString fuel r (c :: acc)

/-- The value of a run of decimal digits. -/
def digitsVal (ds : List Char) : Nat :=
  ds.foldl (fun n c => 10 * n + (c.toNat - 48)) 0

/-- Scan a JSON number: `-? (0 | [1-9][0-9]*) (. [0-9]+)? ([eE] [+-]? [0-9]+)?`. -/
def scanNumber (cs : List Char) : Option (ℚ × List Char) :=
  let neg : Bool := match cs with
    | '-' :: _ => true
    | _ => false
  let cs1 := match cs with
    | '-' :: r => r
    | _ => cs
  let ip := cs1.takeWhile Char.isDigit
  let cs2 := cs1.dropWhile Char.isDigit
  if ip = [] ∨ (1 < ip.length ∧ ip.head? = some '0') then none
  else
    let fracOk : Bool := match cs2 with
      | '.' :: r => !(r.takeWhile Char.isDigit).isEmpty
      | _ => true
    let fp := match cs2 with
      | '.' :: r => r.takeWhile Char.isDigit
      | _ => []
    let cs3 := match cs2 with
      | '.' :: r => r.dropWhile Char.isDigit
      | _ => cs2
    if !fracOk then none
    else
      let mant : ℚ := (digitsVal (ip ++ fp) : ℚ) / (10 : ℚ) ^ fp.length
      let signed : ℚ := if neg then -mant else mant
      match cs3 with
      | e :: r =>
        if e = 'e' ∨ e = 'E' then
          let eneg : Bool := match r with
            | '-' :: _ => true
            | _ => false
          let r1 := match r with
            | '-' :: t => t
            | '+' :: t => t
            | _ => r
          let ed := r1.takeWhile Char.isDigit
          if ed = [] then none
          else
            let ex : ℚ := (10 : ℚ) ^ digitsVal ed
            some (if eneg then signed / ex else signed * ex, r1.dropWhile Char.isDigit)
        else some (signed, cs3)
      | [] => some (signed, cs3)

mutual
/-- Parse one JSON value. -/
def parseValue : Nat → List Char → Option (JSON × List Char)
  | 0, _ => none
  | fuel + 1, cs =>
    match skipWs cs with
    | [] => none
    | 'n' :: 'u' :: 'l' :: 'l' :: r => some (JSON.null, r)
    | 't' :: 'r' :: 'u' :: 'e' :: r => some (JSON.bool true, r)
    | 'f' :: 'a' :: 'l' :: 's' :: 'e' :: r => some (JSON.bool false, r)
    | c :: r =>
      if c = '"' then
        match scanString (r.length + 1) r [] with
        | some (s, r1) => some (JSON.str s, r1)
        | none => none
      else if c = '[' then
        match skipWs r with
        | ']' :: r1 => some (JSON.arr [], r1)
        | r1 => parseElems fuel r1 []
      else if c = '\x7b' then
        match skipWs r with
        | '\x7d' :: r1 => some (JSON.obj [], r1)
        | r1 => parseMembers fuel r1 []
      else if c = '-' ∨ c.isDigit then
        match scanNumber (c :: r) with
        | some (q, r1) =>
          some (JSON.num (String.mk ((c :: r).take ((c :: r).length - r1.length))) q, r1)
        | none => none
      else none
/-- Parse the elements of a non-empty array, after `[`. -/
def parseElems : Nat → List Char → List JSON → Option (JSON × List Char)
  | 0, _, _ => none
  | fuel + 1, cs, acc =>
    match parseValue fuel cs with
    | none => none
    | some (v, r) =>
      match skipWs r with
      | ',' :: r1 => parseElems fuel r1 (v :: acc)
      | ']' :: r1 => some (JSON.arr (v :: acc).reverse, r1)
      | _ => none
/-- Parse the members of a non-empty object, after the opening brace. -/
def parseMembers : Nat → List Char → List (String × JSON) → Option (JSON × List Char)
  | 0, _, _ => none
  | fuel + 1, cs, acc =>
    match skipWs cs with
    | '"' :: r =>
      match scanString (r.length + 1) r [] with
      | none => none
      | some (k, r1) =>
        match skipWs r1 with
        | ':' :: r2 =>
          match parseValue fuel r2 with
          | none => none
          | some (v, r3) =>
            match skipWs r3 with
            | ',' :: r4 => parseMembers fuel r4 ((k, v) :: acc)
            | '\x7d' :: r4 => some (JSON.obj ((k, v) :: acc).reverse, r4)
            | _ => none
        | _ => none
    | _ => none
end

/-- Parse a whole document: one value, then only white space. `none` is a
JSON error of the text itself (`json.Unmarshal` checks it before it decodes
anything). -/
def parseJSON (s : String) : Option JSON :=
  match parseValue (2 * s.length + 2) s.data with
  | some (v, r) => if skipWs r = [] then some v else none
  | none => none

/-- Key folding used to match an object key against a field name: ASCII case
folding, with the long s and the Kelvin sign folded to `s` and `k`. -/
def foldKey (k : String) : String :=
  String.mk (k.data.map (fun c =>
    if c = Char.ofNat 0x17F then 's' else if c = Char.ofNat 0x212A then 'k' else c.toLower))

/-- The fields of `Product`, under their `json` tags. -/
inductive Field where
  | id
  | name
  | description
  | price
  | rate
  | image
  deriving DecidableEq, Repr

/-- The tag of a field: `json:"id"` and so on. -/
def Field.tag : Field → String
  | Field.id => "id"
  | Field.name => "name"
  | Field.description => "description"
  | Field.price => "price"
  | Field.rate => "rate"
  | Field.image => "image"

/-- The field a key names: the exact tag, else the tag it folds to. The tags
are lower case and distinct, so one lookup on the folded key does both. -/
def fieldByName (k : String) : Option Field :=
  [Field.id, Field.name, Field.description, Field.price, Field.rate, Field.image].find?
    (fun f => decide (f.tag = foldKey k))

/-- Store a string in a string field. -/
def Product.setString (p : Product) : Field → String → Product
  | Field.id, s => { p with Id := s }
  | Field.name, s => { p with Name := s }
  | Field.description, s => { p with Description := s }
  | Field.image, s => { p with Image := s }
  | _, _ => p

/-- Store a number in a float field. -/
def Product.setFloat (p : Product) : Field → ℚ → Product
  | Field.price, q => { p with Price := q }
  | Field.rate, q => { p with Rate := q }
  | _, _ => p

/-- Whether the field is one of the two `float32` fields. -/
def Field.isFloat : Field → Bool
  | Field.price => true
  | Field.rate => true
  | _ => false

/-- The name of the kind of a JSON value, as error messages give it. -/
def JSON.kind : JSON → String
  | JSON.null => "null"
  | JSON.bool _ => "bool"
  | JSON.num _ _ => "number"
  | JSON.str _ => "string"
  | JSON.arr _ => "array"
  | JSON.obj _ => "object"

/-- The type error of `encoding/json` for a value, named by `what`, that does
not fit a field. -/
def jsonTypeError (what : String) (f : Field) : Err :=
  "json: cannot unmarshal " ++ what ++ " into Go struct field Product." ++ f.tag ++
    " of type " ++ (if f.isFloat then "float32" else "string")

/-- Decode one member value into a field. `null` leaves the field alone; a
string fits a string field; a number fits a float field when its text is in
the range of `float32`, and is stored rounded; any other value is skipped and
reported. -/
def decodeField (ff : FloatFormat) (p : Product) (f : Field) (v : JSON) :
    Product × Option Err :=
  match v with
  | JSON.null => (p, none)
  | JSON.str s =>
    if f.isFloat then (p, some (jsonTypeError "string" f)) else (p.setString f s, none)
  | JSON.num text q =>
    if f.isFloat then
      match ff.parseFloat32 q with
      | some x => (p.setFloat f x, none)
      | none => (p, some (jsonTypeError ("number " ++ text) f))
    else (p, some (jsonTypeError "number" f))
  | _ => (p, some (jsonTypeError v.kind f))

/-- Decode the members of an object in order; unknown keys are ignored, the
earliest type error is kept and decoding goes on. -/
def decodeMembers (ff : FloatFormat) :
    List (String × JSON) → Product → Option Err → Product × Option Err
  | [], p, e => (p, e)
  | (k, v) :: rest, p, e =>
    match fieldByName k with
    | none => decodeMembers ff rest p e
    | some f =>
      decodeMembers ff rest (decodeField ff p f v).1
        (if e.isSome then e else (decodeField ff p f v).2)

/-- Library `json.Unmarshal(data, &product)`: the product after the call and
the returned error. Invalid text is rejected before anything is stored; a
document that is not an object is a type error; a value of the wrong kind in a
member is skipped and reported while the other members are still stored. -/
def jsonUnmarshal (ff : FloatFormat) (data : String) (product : Product) :
    Product × Option Err :=
  match parseJSON data with
  | none => (product, some "invalid character or unexpected end of JSON input")
  | some JSON.null => (product, none)
  | some (JSON.obj kvs) => decodeMembers ff kvs product none
  | some v => (product, some ("json: cannot unmarshal " ++ v.kind ++ " into Go value of type main.Product"))

/-- Two hexadecimal digits of a byte, for a `\u00XX` escape. -/
def hex2 (n : Nat) : String :=
  String.mk [(Nat.toDigits 16 (n / 16 % 16)).headD '0', (Nat.toDigits 16 (n % 16)).headD '0']

/-- One character of a JSON string as `json.Marshal` writes it (HTML-safe). -/
def jsonEscapeChar (c : Char) : String :=
  if c = '"' then "\\\""
  else if c = '\\' then "\\\\"
  else if c = '\n' then "\\n"
  else if c = '\r' then "\\r"
  else if c = '\t' then "\\t"
  else if c.toNat < 32 ∨ c = '<' ∨ c = '>' ∨ c = '&' then "\\u00" ++ hex2 c.toNat
  else if c = Char.ofNat 0x2028 then "\\u2028"
  else if c = Char.ofNat 0x2029 then "\\u2029"
  else String.singleton c

/-- A Go string as a JSON string. -/
def jsonString (s : String) : String :=
  "\"" ++ String.join (s.data.map jsonEscapeChar) ++ "\""

/-- Library `json.Marshal(Message{...})`. -/
def jsonMarshalMessage (m : Message) : String :=
  "\x7b\"message\":" ++ jsonString m.Message ++ "\x7d"

/-- The renderers of the libraries that a model over the rationals cannot
define: they are parameters of the embedding. -/
structure Lib where
  /-- Library `json.Marshal` on a `Product`. -/
  jsonMarshalProduct : Product → String
  /-- Library `json.Marshal` on an `events.APIGatewayProxyRequest`. -/
  jsonMarshalRequest : Request → String
  /-- The decimal text of a number attribute. -/
  numberText : ℚ → String
  /-- The rendering of an `UpdateItemOutput` by `fmt.Println`. -/
  showUpdateItemOutput : Item → String

/-- Library `json.Marshal` on a `[]Product`: a nil slice is `null`, any other
slice is an array of its elements in order. -/
def jsonMarshalProducts (lib : Lib) : Option (List Product) → String
  | none => "null"
  | some ps => "[" ++ ",".intercalate (ps.map lib.jsonMarshalProduct) ++ "]"

/-- Library `json.Marshal` on a `*Product`: a nil pointer is `null`. -/
def jsonMarshalProductPtr (lib : Lib) : Option Product → String
  | none => "null"
  | some p => lib.jsonMarshalProduct p

/-! ## Attribute maps (dynamodbattribute) and formatting -/

/-- A string field as an attribute: the encoder writes the empty string as
`NULL`. -/
def encodeString (s : String) : AttributeValue :=
  if s = "" then AttributeValue.NULL else AttributeValue.S s

/-- The attributes the encoder writes for a product: one per field, under the
`json` tag. -/
def productItem (product : Product) : Item :=
  [("id", encodeString product.Id),
   ("name", encodeString product.Name),
   ("description", encodeString product.Description),
   ("price", AttributeValue.N product.Price),
   ("rate", AttributeValue.N product.Rate),
   ("image", encodeString product.Image)]

/-- Library `dynamodbattribute.MarshalMap(product)`. It has no failing case on
a `Product`. -/
def MarshalMap (product : Product) : Except Err Item :=
  Except.ok (productItem product)

/-- The zero value of a field. -/
def Product.clearField (p : Product) (f : Field) : Product :=
  if f.isFloat then p.setFloat f 0 else p.setString f ""

/-- The type error of the attribute decoder. -/
def avTypeError (kind : String) (f : Field) : Err :=
  "UnmarshalTypeError: cannot unmarshal " ++ kind ++ " into Go value of type " ++
    (if f.isFloat then "float32" else "string")

/-- Decode one attribute into a field: `NULL` clears the field, a string fits
a string field, a number fits a float field when it is in the range of
`float32` (it is stored rounded) and is stored as its text in a string field,
anything else is a type error. -/
def decodeAttribute (ff : FloatFormat) (lib : Lib) (p : Product) (f : Field) :
    AttributeValue → Except Err Product
  | AttributeValue.NULL => Except.ok (p.clearField f)
  | AttributeValue.S s =>
    if f.isFloat then Except.error (avTypeError "string" f) else Except.ok (p.setString f s)
  | AttributeValue.N n =>
    if f.isFloat then
      match ff.parseFloat64AsFloat32 n with
      | some x => Except.ok (p.setFloat f x)
      | none => Except.error (avTypeError ("number overflow, " ++ lib.numberText n) f)
    else Except.ok (p.setString f (lib.numberText n))
  | AttributeValue.BOOL _ => Except.error (avTypeError "bool" f)

/-- Library `dynamodbattribute.UnmarshalMap(item, &product)`: the attributes
are decoded one by one into the fields they name, attributes that name no
field are ignored, and the first error stops the decoding. An item without
attributes leaves the product as it is. -/
def UnmarshalMap (ff : FloatFormat) (lib : Lib) : Item → Product → Except Err Product
  | [], p => Except.ok p
  | (k, av) :: rest, p =>
    match fieldByName k with
    | none => UnmarshalMap ff lib rest p
    | some f =>
      match decodeAttribute ff lib p f av with
      | Except.error e => Except.error e
      | Except.ok p1 => UnmarshalMap ff lib rest p1

/-! ## The table store client -/

/-- Source: `dynamodb.PutItemInput` as `Save` fills it. -/
structure PutItemInput where
  Item : Item
  TableName : String
  deriving DecidableEq, Repr

/-- Source: `dynamodb.ScanInput` as `FindAll` fills it. -/
structure ScanInput where
  TableName : String
  deriving DecidableEq, Repr

/-- Source: `dynamodb.GetItemInput` as `FindByID` fills it. -/
structure GetItemInput where
  TableName : String
  Key : Item
  deriving DecidableEq, Repr

/-- Source: `dynamodb.DeleteItemInput` as `Delete` fills it. -/
structure DeleteItemInput where
  TableName : String
  Key : Item
  deriving DecidableEq, Repr

/-- Source: `dynamodb.UpdateItemInput` as `Put` fills it. -/
structure UpdateItemInput where
  ExpressionAttributeNames : List (String × String)
  ExpressionAttributeValues : Item
  TableName : String
  Key : Item
  ReturnValues : String
  UpdateExpression : String
  deriving DecidableEq, Repr

/-- One call of the table store API. -/
inductive Call where
  | PutItem (input : PutItemInput)
  | Scan (input : ScanInput)
  | GetItem (input : GetItemInput)
  | DeleteItem (input : DeleteItemInput)
  | UpdateItem (input : UpdateItemInput)
  deriving DecidableEq, Repr

/-- The table store: what each API call answers and how it changes the store.
`Scan` and `GetItem` answer with items, `UpdateItem` with the attributes it
set. -/
structure Backend (σ : Type) where
  PutItem : PutItemInput → σ → Except Err Unit × σ
  Scan : ScanInput → σ → Except Err (List Item) × σ
  GetItem : GetItemInput → σ → Except Err Item × σ
  DeleteItem : DeleteItemInput → σ → Except Err Unit × σ
  UpdateItem : UpdateItemInput → σ → Except Err Item × σ

/-- What is outside the process: the store, the API calls made so far and the
text printed so far. -/
structure World (σ : Type) where
  db : σ
  calls : List Call
  stdout : List String
  deriving DecidableEq, Repr

/-- Either a function returned or it panicked. -/
inductive Outcome (α : Type) where
  | ret (a : α)
  | panic (e : Err)
  deriving DecidableEq, Repr

/-- Source: `dynamoDBClient.PutItem(item)`. -/
def clientPutItem {σ : Type} (b : Backend σ) (input : PutItemInput) (w : World σ) :
    Except Err Unit × World σ :=
  ((b.PutItem input w.db).1,
    { w with db := (b.PutItem input w.db).2, calls := w.calls ++ [Call.PutItem input] })

/-- Source: `dynamoDBClient.Scan(params)`. -/
def clientScan {σ : Type} (b : Backend σ) (input : ScanInput) (w : World σ) :
    Except Err (List Item) × World σ :=
  ((b.Scan input w.db).1,
    { w with db := (b.Scan input w.db).2, calls := w.calls ++ [Call.Scan input] })

/-- Source: `dynamoDBClient.GetItem(...)`. -/
def clientGetItem {σ : Type} (b : Backend σ) (input : GetItemInput) (w : World σ) :
    Except Err Item × World σ :=
  ((b.GetItem input w.db).1,
    { w with db := (b.GetItem input w.db).2, calls := w.calls ++ [Call.GetItem input] })

/-- Source: `dynamoDBClient.DeleteItem(...)`. -/
def clientDeleteItem {σ : Type} (b : Backend σ) (input : DeleteItemInput) (w : World σ) :
    Except Err Unit × World σ :=
  ((b.DeleteItem input w.db).1,
    { w with db := (b.DeleteItem input w.db).2, calls := w.calls ++ [Call.DeleteItem input] })

/-- Source: `dynamoDBClient.UpdateItem(...)`. -/
def clientUpdateItem {σ : Type} (b : Backend σ) (input : UpdateItemInput) (w : World σ) :
    Except Err Item × World σ :=
  ((b.UpdateItem input w.db).1,
    { w with db := (b.UpdateItem input w.db).2, calls := w.calls ++ [Call.UpdateItem input] })

/-- Source: `fmt.Print` and `fmt.Println`. -/
def print {σ : Type} (text : String) (w : World σ) : World σ :=
  { w with stdout := w.stdout ++ [text] }

/-! ## The repository -/

/-- Source: `type dynamoDBRepo struct`. -/
structure dynamoDBRepo where
  tableName : String
  deriving DecidableEq, Repr

/-- Source: `NewDynamoDBRepository`. -/
def NewDynamoDBRepository : dynamoDBRepo :=
  { tableName := "Product" }

/-- The key `map[string]*dynamodb.AttributeValue{"id": {S: aws.String(id)}}`. -/
def idKey (id : String) : Item :=
  [("id", AttributeValue.S id)]

/-- Source: `(*dynamoDBRepo).Save`. The pair is the returned `(*Product, error)`. -/
def dynamoDBRepo.Save {σ : Type} (repo : dynamoDBRepo) (b : Backend σ) (product : Product)
    (w : World σ) : (Option Product × Option Err) × World σ :=
  match MarshalMap product with
  | Except.error err => ((none, some err), w)
  | Except.ok attributeValue =>
    let item : PutItemInput := { Item := attributeValue, TableName := repo.tableName }
    match clientPutItem b item w with
    | (Except.error err, w1) => ((none, some err), w1)
    | (Except.ok _, w1) => ((some product, none), w1)

/-- The loop of `FindAll` over `result.Items`, appending each decoded product:
an error when an item fails to decode, which is where the source panics. -/
def decodeItems (ff : FloatFormat) (lib : Lib) :
    List Item → List Product → Except Err (List Product)
  | [], products => Except.ok products
  | i :: rest, products =>
    match UnmarshalMap ff lib i Product.zero with
    | Except.error err => Except.error err
    | Except.ok product => decodeItems ff lib rest (products ++ [product])

/-- Source: `(*dynamoDBRepo).FindAll`. The pair is the returned
`([]Product, error)`; a nil slice is `none`. -/
def dynamoDBRepo.FindAll {σ : Type} (repo : dynamoDBRepo) (ff : FloatFormat) (lib : Lib)
    (b : Backend σ) (w : World σ) :
    Outcome (Option (List Product) × Option Err) × World σ :=
  let params : ScanInput := { TableName := repo.tableName }
  match clientScan b params w with
  | (Except.error err, w1) => (Outcome.ret (none, some err), w1)
  | (Except.ok items, w1) =>
    match decodeItems ff lib items [] with
    | Except.error err => (Outcome.panic err, w1)
    | Except.ok products => (Outcome.ret (some products, none), w1)

/-- Source: `(*dynamoDBRepo).FindByID`. The pair is the returned
`(*Product, error)`; a nil pointer is `none`. -/
def dynamoDBRepo.FindByID {σ : Type} (repo : dynamoDBRepo) (ff : FloatFormat) (lib : Lib)
    (b : Backend σ) (id : String) (w : World σ) :
    Outcome (Option Product × Option Err) × World σ :=
  let w0 := print id w
  match clientGetItem b { TableName := repo.tableName, Key := idKey id } w0 with
  | (Except.error err, w1) => (Outcome.ret (none, some err), w1)
  | (Except.ok item, w1) =>
    match UnmarshalMap ff lib item Product.zero with
    | Except.error err => (Outcome.panic err, w1)
    | Except.ok product => (Outcome.ret (some product, none), w1)

/-- Source: `(*dynamoDBRepo).Delete`. The value is the returned `error`. -/
def dynamoDBRepo.Delete {σ : Type} (repo : dynamoDBRepo) (b : Backend σ) (id : String)
    (w : World σ) : Option Err × World σ :=
  let w0 := print id w
  match clientDeleteItem b { TableName := repo.tableName, Key := idKey id } w0 with
  | (Except.error err, w1) => (some err, w1)
  | (Except.ok _, w1) => (none, w1)

/-- The input `Put` builds for `UpdateItem`. -/
def putInput (repo : dynamoDBRepo) (id : String) (updateProduct : Product) : UpdateItemInput :=
  { ExpressionAttributeNames := [("#name", "name")]
    ExpressionAttributeValues :=
      [(":n", AttributeValue.S updateProduct.Name),
       (":d", AttributeValue.S updateProduct.Description),
       (":pr", AttributeValue.N (sprintfF updateProduct.Price))]
    TableName := repo.tableName
    Key := idKey id
    ReturnValues := "UPDATED_NEW"
    UpdateExpression := "set #name = :n, description = :d, price = :pr" }

/-- Source: `(*dynamoDBRepo).Put`. The method returns nothing: an error of the
call is printed, then the output of the call is printed. -/
def dynamoDBRepo.Put {σ : Type} (repo : dynamoDBRepo) (lib : Lib) (b : Backend σ) (id : String)
    (updateProduct : Product) (w : World σ) : World σ :=
  match clientUpdateItem b (putInput repo id updateProduct) w with
  | (Except.error err, w1) =>
    print (lib.showUpdateItemOutput [] ++ "\n") (print (err ++ "\n") w1)
  | (Except.ok result, w1) => print (lib.showUpdateItemOutput result ++ "\n") w1

/-! ## The handler -/

/-- The values one iteration of the seeding loop draws, in the order the
struct literal evaluates them: `faker.Word()`, `faker.Word()`,
`faker.Paragraph()`, `rand.Float32()`, `rand.Float32()`, `faker.UUIDDigit()`. -/
structure SeedDraw where
  word1 : String
  word2 : String
  paragraph : String
  float1 : ℚ
  float2 : ℚ
  uuidDigit : String
  deriving DecidableEq, Repr

/-- The product one iteration of the seeding loop builds. -/
def seedProduct (d : SeedDraw) : Product :=
  { Id := d.word1
    Name := d.word2
    Description := d.paragraph
    Price := 10 + d.float1 * (100 - 10)
    Rate := 0 + d.float2 * (5 - 0)
    Image := "http://lorempixel.com/200/200?" ++ d.uuidDigit }

/-- Source: the loop `for i := 1; i < 5; i++` around
`NewDynamoDBRepository().Save(...)`, from loop counter `i` on; the value `Save`
returns is dropped. -/
def seedLoop {σ : Type} (b : Backend σ) (draws : Nat → SeedDraw) :
    Nat → Nat → World σ → World σ
  | 0, _, w => w
  | fuel + 1, i, w =>
    if i < 5 then
      seedLoop b draws fuel (i + 1) (NewDynamoDBRepository.Save b (seedProduct (draws i)) w).2
    else w

/-- An assignment to a variable that already holds a value: the old value is
dropped. -/
def assign {α : Type} (_old new : α) : α :=
  new

/-- The header map every routed branch attaches. -/
def corsHeaders : List (String × String) :=
  [("Access-Control-Allow-Origin", "*")]

/-- First case of the switch: list all. -/
def isListRoute (request : Request) : Prop :=
  request.HTTPMethod = "GET" ∧ request.Path = "/products" ∧
    mapGet request.PathParameters "id" = ""

/-- Second case of the switch: fetch by id. -/
def isGetRoute (request : Request) : Prop :=
  request.HTTPMethod = "GET" ∧ request.Resource = "/products/\x7bid\x7d" ∧
    mapGet request.PathParameters "id" ≠ ""

/-- Third case of the switch: seed. -/
def isSeedRoute (request : Request) : Prop :=
  request.HTTPMethod = "POST" ∧ request.Path = "/products"

/-- Fourth case of the switch: delete by id. -/
def isDeleteRoute (request : Request) : Prop :=
  request.HTTPMethod = "DELETE" ∧ request.Resource = "/products/\x7bid\x7d" ∧
    mapGet request.PathParameters "id" ≠ ""

/-- Fifth case of the switch: update by id. -/
def isPutRoute (request : Request) : Prop :=
  request.HTTPMethod = "PUT" ∧ request.Resource = "/products/\x7bid\x7d" ∧
    mapGet request.PathParameters "id" ≠ ""

instance (request : Request) : Decidable (isListRoute request) := by
  unfold isListRoute; infer_instance

instance (request : Request) : Decidable (isGetRoute request) := by
  unfold isGetRoute; infer_instance

instance (request : Request) : Decidable (isSeedRoute request) := by
  unfold isSeedRoute; infer_instance

instance (request : Request) : Decidable (isDeleteRoute request) := by
  unfold isDeleteRoute; infer_instance

instance (request : Request) : Decidable (isPutRoute request) := by
  unfold isPutRoute; infer_instance

/-- Source: `handleRequest`. The cases of `switch true` are tried in order. The
result is the returned `(events.APIGatewayProxyResponse, error)`, or the panic
that `FindAll` or `FindByID` raised. -/
def handleRequest {σ : Type} (ff : FloatFormat) (lib : Lib) (b : Backend σ)
    (draws : Nat → SeedDraw) (request : Request) (w : World σ) :
    Outcome (Response × Option Err) × World σ :=
  if isListRoute request then
    match NewDynamoDBRepository.FindAll ff lib b w with
    | (Outcome.panic e, w1) => (Outcome.panic e, w1)
    | (Outcome.ret (products, _), w1) =>
      (Outcome.ret
        ({ Body := jsonMarshalProducts lib products, StatusCode := 200,
           Headers := corsHeaders }, none), w1)
  else if isGetRoute request then
    match NewDynamoDBRepository.FindByID ff lib b (mapGet request.PathParameters "id") w with
    | (Outcome.panic e, w1) => (Outcome.panic e, w1)
    | (Outcome.ret (products, _), w1) =>
      (Outcome.ret
        ({ Body := jsonMarshalProductPtr lib products, StatusCode := 200,
           Headers := corsHeaders }, none), w1)
  else if isSeedRoute request then
    let w1 := seedLoop b draws 5 1 w
    (Outcome.ret
      ({ Body := "Initialize DynamoDB is complete!!!", StatusCode := 200,
         Headers := corsHeaders }, none), w1)
  else if isDeleteRoute request then
    let r := NewDynamoDBRepository.Delete b (mapGet request.PathParameters "id") w
    let response0 : Response :=
      match r.1 with
      | some err => { Body := err, StatusCode := 400, Headers := corsHeaders }
      | none => {}
    let message := jsonMarshalMessage { Message := "Done" }
    let response : Response :=
      assign response0 { Body := message, StatusCode := 200, Headers := corsHeaders }
    (Outcome.ret (response, none), r.2)
  else if isPutRoute request then
    let product := (jsonUnmarshal ff request.Body Product.zero).1
    let w1 := NewDynamoDBRepository.Put lib b (mapGet request.PathParameters "id") product w
    let message := jsonMarshalMessage { Message := "Done" }
    (Outcome.ret ({ Body := message, StatusCode := 200, Headers := corsHeaders }, none), w1)
  else
    (Outcome.ret ({ Body := lib.jsonMarshalRequest request, StatusCode := 404 }, none), w)

/-! ## A table store that is a map from id to product -/

/-- The price and the rate of the product are `float32` values of the format:
written as number attributes, they are read back as they are. -/
def readsBack (ff : FloatFormat) (p : Product) : Prop :=
  ff.parseFloat64AsFloat32 p.Price = some p.Price ∧
    ff.parseFloat64AsFloat32 p.Rate = some p.Rate

/-- The id a key names. -/
def keyId (key : Item) : Option String :=
  match key.lookup "id" with
  | some (AttributeValue.S id) => some id
  | _ => none

/-- The record stored under an id. -/
def lookupId (db : List Product) (id : String) : Option Product :=
  db.find? (fun p => decide (p.Id = id))

/-- The three values of the update expression of `Put`. -/
def updateValues (input : UpdateItemInput) : Option (String × String × ℚ) :=
  match input.ExpressionAttributeValues.lookup ":n",
        input.ExpressionAttributeValues.lookup ":d",
        input.ExpressionAttributeValues.lookup ":pr" with
  | some (AttributeValue.S n), some (AttributeValue.S d), some (AttributeValue.N pr) =>
    if input.UpdateExpression = "set #name = :n, description = :d, price = :pr" ∧
        input.ExpressionAttributeNames.lookup "#name" = some "name" then some (n, d, pr)
    else none
  | _, _, _ => none

/-- The write of an update on one record: the record of the given id gets the
new name, description and price, any other record is left alone. -/
def applyUpdate (id n d : String) (pr : ℚ) (q : Product) : Product :=
  if q.Id = id then { q with Name := n, Description := d, Price := pr } else q

/-- Modelled from the spec: the managed table store as a map from id to
product in which every well-formed call succeeds (section 4.1). `put` writes
or overwrites the full record keyed by `id`, last writer wins; `scan` returns
all items; `getByKey` returns no attributes when there is no record; `update`
sets exactly `name`, `description` and `price` of the record keyed by `id`
(creating it when absent); `delete` removes the record and is idempotent. The
map is a list read by first match on `Id`. The store keeps the numbers it is
given as they are: it reads the written item in exact arithmetic. -/
def mapStore (lib : Lib) : Backend (List Product) where
  PutItem := fun input db =>
    match UnmarshalMap exactArithmetic lib input.Item Product.zero with
    | Except.error e => (Except.error e, db)
    | Except.ok p => (Except.ok (), db.filter (fun q => decide (q.Id ≠ p.Id)) ++ [p])
  Scan := fun _ db => (Except.ok (db.map productItem), db)
  GetItem := fun input db =>
    match keyId input.Key with
    | none => (Except.error "ValidationException", db)
    | some id =>
      match lookupId db id with
      | some p => (Except.ok (productItem p), db)
      | none => (Except.ok [], db)
  DeleteItem := fun input db =>
    match keyId input.Key with
    | none => (Except.error "ValidationException", db)
    | some id => (Except.ok (), db.filter (fun q => decide (q.Id ≠ id)))
  UpdateItem := fun input db =>
    match keyId input.Key, updateValues input with
    | some id, some (n, d, pr) =>
      let out : Item :=
        [("name", AttributeValue.S n), ("description", AttributeValue.S d),
         ("price", AttributeValue.N pr)]
      if (lookupId db id).isSome then
        (Except.ok out, db.map (applyUpdate id n d pr))
      else
        (Except.ok out,
          db ++ [{ Product.zero with Id := id, Name := n, Description := d, Price := pr }])
    | _, _ => (Except.error "ValidationException", db)

/-! ## Sample inputs -/

/-- Fractional digits of `r / d`, most significant first, until the remainder
is zero or the fuel is spent. -/
def fracDigits : Nat → Nat → Nat → List Char
  | 0, _, _ => []
  | fuel + 1, r, d =>
    if r = 0 then [] else Char.ofNat (48 + r * 10 / d) :: fracDigits fuel (r * 10 % d) d

/-- A number in positional decimal notation, cut after 38 fractional digits. -/
def decimalText (q : ℚ) : String :=
  (if q < 0 then "-" else "") ++ toString (q.num.natAbs / q.den) ++
    (if q.num.natAbs % q.den = 0 then ""
     else "." ++ String.mk (fracDigits 38 (q.num.natAbs % q.den) q.den))

/-- For `a > 0`, the greatest `e` with `10 ^ e ≤ a`, searched downwards from
`hi` with the given fuel. -/
def floorLog10From : Nat → ℤ → ℚ → ℤ
  | 0, hi, _ => hi
  | fuel + 1, hi, a => if (10 : ℚ) ^ hi ≤ a then hi else floorLog10From fuel (hi - 1) a

/-- For `a > 0` in the range of binary32, the greatest `e` with `10 ^ e ≤ a`. -/
def floorLog10 (a : ℚ) : ℤ :=
  floorLog10From 100 39 a

/-- The number rounded to `n` significant decimal digits, ties to even. -/
def roundSignificant (n : Nat) (q : ℚ) : ℚ :=
  if q = 0 then 0
  else
    (roundHalfEven (q / (10 : ℚ) ^ (floorLog10 |q| - ((n : ℤ) - 1))) : ℚ) *
      (10 : ℚ) ^ (floorLog10 |q| - ((n : ℤ) - 1))

/-- The shortest of the roundings of `x` to 1 up to 9 significant digits that
reads back as the binary32 number `x`; `x` itself when none does. -/
def shortestDecimal32 (x : ℚ) : ℚ :=
  match (List.range 9).find?
      (fun n => decide (ieee.parseFloat32 (roundSignificant (n + 1) x) = some x)) with
  | some n => roundSignificant (n + 1) x
  | none => x

/-- A `float32` as `json.Marshal` writes it: the shortest decimal that reads
back, in positional notation, or with an exponent when the number is below
the `float32` nearest to `1e-6` or not below `1e21`. -/
def jsonFloat32 (x : ℚ) : String :=
  if x = 0 then "0"
  else if |x| < roundToBinary 24 (-126) (1 / 1000000) ∨ 1000000000000000000000 ≤ |x| then
    decimalText (shortestDecimal32 x / (10 : ℚ) ^ floorLog10 |shortestDecimal32 x|) ++ "e" ++
      (if floorLog10 |shortestDecimal32 x| < 0 then "-" else "+") ++
      (if 0 ≤ floorLog10 |shortestDecimal32 x| ∧ floorLog10 |shortestDecimal32 x| < 10 then "0"
       else "") ++
      toString (floorLog10 |shortestDecimal32 x|).natAbs
  else decimalText (shortestDecimal32 x)

/-- A string map as `json.Marshal` writes it: `null` for the nil map, else an
object with the keys in order. -/
def jsonStringMap (m : List (String × String)) : String :=
  if m.isEmpty then "null"
  else
    "\x7b" ++
      ",".intercalate
        ((m.mergeSort (fun a b => decide (a.1 ≤ b.1))).map
          (fun kv => jsonString kv.1 ++ ":" ++ jsonString kv.2)) ++
      "\x7d"

/-- A map of string lists as `json.Marshal` writes it. -/
def jsonStringListMap (m : List (String × List String)) : String :=
  if m.isEmpty then "null"
  else
    "\x7b" ++
      ",".intercalate
        ((m.mergeSort (fun a b => decide (a.1 ≤ b.1))).map
          (fun kv => jsonString kv.1 ++ ":[" ++ ",".intercalate (kv.2.map jsonString) ++ "]")) ++
      "\x7d"

/-- A Go string as the verb `%q` writes it, for text without characters that
are not printable other than the common control characters. -/
def goQuote (s : String) : String :=
  "\"" ++
    String.join
      (s.data.map (fun c =>
        if c = '"' then "\\\""
        else if c = '\\' then "\\\\"
        else if c = '\n' then "\\n"
        else if c = '\r' then "\\r"
        else if c = '\t' then "\\t"
        else String.singleton c)) ++
    "\""

/-- One attribute value as `awsutil.Prettify` writes it at indent 4. -/
def prettifyAttribute (numberText : ℚ → String) : AttributeValue → String
  | AttributeValue.S s => "\x7b\n      S: " ++ goQuote s ++ "\n    \x7d"
  | AttributeValue.N n => "\x7b\n      N: " ++ goQuote (numberText n) ++ "\n    \x7d"
  | AttributeValue.NULL => "\x7b\n      NULL: true\n    \x7d"
  | AttributeValue.BOOL b => "\x7b\n      BOOL: " ++ toString b ++ "\n    \x7d"

/-- An `UpdateItemOutput` as `awsutil.Prettify` writes it: the unset fields
are left out, so an output without attributes is an empty pair of braces
around two line breaks. -/
def prettifyUpdateItemOutput (numberText : ℚ → String) (item : Item) : String :=
  if item.isEmpty then "\x7b\n\n\x7d"
  else
    "\x7b\n  Attributes: \x7b\n" ++
      ",\n".intercalate
        (item.map (fun kv => "    " ++ kv.1 ++ ": " ++ prettifyAttribute numberText kv.2)) ++
      "\n  \x7d\n\x7d"

/-- A sample instance of the renderers, used to run the model on concrete
inputs. -/
def sampleLib : Lib where
  jsonMarshalProduct := fun p =>
    "\x7b\"id\":" ++ jsonString p.Id ++ ",\"name\":" ++ jsonString p.Name ++
      ",\"description\":" ++ jsonString p.Description ++ ",\"price\":" ++ jsonFloat32 p.Price ++
      ",\"rate\":" ++ jsonFloat32 p.Rate ++ ",\"image\":" ++ jsonString p.Image ++ "\x7d"
  jsonMarshalRequest := fun r =>
    "\x7b\"resource\":" ++ jsonString r.Resource ++ ",\"path\":" ++ jsonString r.Path ++
      ",\"httpMethod\":" ++ jsonString r.HTTPMethod ++
      ",\"headers\":" ++ jsonStringMap r.Headers ++
      ",\"multiValueHeaders\":" ++ jsonStringListMap r.MultiValueHeaders ++
      ",\"queryStringParameters\":" ++ jsonStringMap r.QueryStringParameters ++
      ",\"multiValueQueryStringParameters\":" ++
        jsonStringListMap r.MultiValueQueryStringParameters ++
      ",\"pathParameters\":" ++ jsonStringMap r.PathParameters ++
      ",\"stageVariables\":" ++ jsonStringMap r.StageVariables ++
      ",\"requestContext\":" ++ r.RequestContext ++
      ",\"body\":" ++ jsonString r.Body ++
      (if r.IsBase64Encoded then ",\"isBase64Encoded\":true" else "") ++ "\x7d"
  numberText := decimalText
  showUpdateItemOutput := prettifyUpdateItemOutput decimalText

/-- A table store without state that gives the same answers to every call. -/
def constBackend (put : Except Err Unit) (scan : Except Err (List Item))
    (get : Except Err Item) (del : Except Err Unit) (upd : Except Err Item) : Backend Unit where
  PutItem := fun _ u => (put, u)
  Scan := fun _ u => (scan, u)
  GetItem := fun _ u => (get, u)
  DeleteItem := fun _ u => (del, u)
  UpdateItem := fun _ u => (upd, u)

/-- A table store on which every call fails. -/
def failingBackend : Backend Unit :=
  constBackend (Except.error "RequestError") (Except.error "RequestError")
    (Except.error "RequestError") (Except.error "RequestError") (Except.error "RequestError")

/-- A table store whose reads return the given item. -/
def servingBackend (item : Item) : Backend Unit :=
  constBackend (Except.ok ()) (Except.ok [item]) (Except.ok item) (Except.ok ()) (Except.ok [])

/-- A world before any call. -/
def freshWorld {σ : Type} (db : σ) : World σ :=
  { db := db, calls := [], stdout := [] }

/-- A sample request context, as JSON text. -/
def sampleRequestContext : String :=
  "\x7b\"accountId\":\"123456789012\",\"resourceId\":\"r1\",\"stage\":\"prod\"," ++
    "\"requestId\":\"req-1\",\"identity\":\x7b\"cognitoIdentityPoolId\":\"\"," ++
    "\"accountId\":\"\",\"cognitoIdentityId\":\"\",\"caller\":\"\",\"apiKey\":\"\"," ++
    "\"accessKey\":\"\",\"sourceIp\":\"192.0.2.1\",\"cognitoAuthenticationType\":\"\"," ++
    "\"cognitoAuthenticationProvider\":\"\",\"userArn\":\"\",\"userAgent\":\"curl\"," ++
    "\"user\":\"\"\x7d,\"resourcePath\":\"/products\",\"authorizer\":null," ++
    "\"httpMethod\":\"GET\",\"apiId\":\"api1\"\x7d"

/-- A request with the given method, path, resource, path parameters and body. -/
def mkRequest (method path resource : String) (params : List (String × String))
    (body : String) : Request :=
  { Resource := resource, Path := path, HTTPMethod := method, Headers := [],
    MultiValueHeaders := [], QueryStringParameters := [],
    MultiValueQueryStringParameters := [], PathParameters := params, StageVariables := [],
    RequestContext := sampleRequestContext, Body := body, IsBase64Encoded := false }

/-- Sample draws: iteration `i` draws the id `w1` to `w4`. -/
def sampleDraws (i : Nat) : SeedDraw :=
  { word1 := "w" ++ toString i, word2 := "name", paragraph := "text",
    float1 := 1 / 2, float2 := 1 / 4, uuidDigit := "0123" }

/-- Sample draws in which every iteration draws the same id and the name
carries the loop counter. -/
def collidingDraws (i : Nat) : SeedDraw :=
  { word1 := "same", word2 := "n" ++ toString i, paragraph := "text",
    float1 := 0, float2 := 0, uuidDigit := "0" }

/-- An item whose price is beyond the range of `float32`. -/
def overflowItem : Item :=
  [("id", AttributeValue.S "X"), ("price", AttributeValue.N (10 ^ 39))]

/-- A stored sample product. -/
def sampleProduct : Product :=
  { Id := "X", Name := "old", Description := "old text", Price := 12, Rate := 3,
    Image := "http://img" }

/-! ## Lemmas on the codecs -/

theorem fieldByName_id : fieldByName "id" = some Field.id := by decide

theorem fieldByName_name : fieldByName "name" = some Field.name := by decide

theorem fieldByName_description : fieldByName "description" = some Field.description := by decide

theorem fieldByName_price : fieldByName "price" = some Field.price := by decide

theorem fieldByName_rate : fieldByName "rate" = some Field.rate := by decide

theorem fieldByName_image : fieldByName "image" = some Field.image := by decide

/-- Decoding the attributes written for a product gives the product back, with
the price and the rate as the format reads them. -/
theorem UnmarshalMap_productItem (ff : FloatFormat) (lib : Lib) (p : Product) (x y : ℚ)
    (hx : ff.parseFloat64AsFloat32 p.Price = some x)
    (hy : ff.parseFloat64AsFloat32 p.Rate = some y) :
    UnmarshalMap ff lib (productItem p) Product.zero =
      Except.ok { p with Price := x, Rate := y } := by
  obtain ⟨i, n, d, pr, r, im⟩ := p
  simp only at hx hy
  by_cases hi : i = "" <;> by_cases hn : n = "" <;> by_cases hd : d = "" <;>
    by_cases him : im = "" <;>
    simp [productItem, UnmarshalMap, fieldByName_id, fieldByName_name, fieldByName_description,
      fieldByName_price, fieldByName_rate, fieldByName_image, decodeAttribute, encodeString,
      Product.clearField, Product.setString, Product.setFloat, Field.isFloat, Product.zero,
      hi, hn, hd, him, hx, hy]

/-- Decoding the attributes written for a product whose floats are `float32`
values of the format gives the product back. -/
theorem UnmarshalMap_productItem_readsBack (ff : FloatFormat) (lib : Lib) (p : Product)
    (h : readsBack ff p) :
    UnmarshalMap ff lib (productItem p) Product.zero = Except.ok p :=
  UnmarshalMap_productItem ff lib p p.Price p.Rate h.1 h.2

/-- In exact arithmetic every product is read back as it is. -/
theorem readsBack_exactArithmetic (p : Product) : readsBack exactArithmetic p :=
  ⟨rfl, rfl⟩

/-- The loop of `FindAll` on the attributes written for a list of products
whose floats are `float32` values of the format. -/
theorem decodeItems_productItem (ff : FloatFormat) (lib : Lib) (ps acc : List Product)
    (h : ∀ p ∈ ps, readsBack ff p) :
    decodeItems ff lib (ps.map productItem) acc = Except.ok (acc ++ ps) := by
  induction ps generalizing acc with
  | nil => simp [decodeItems]
  | cons p rest ih =>
    have hp : readsBack ff p := h p (by simp)
    have hrest : ∀ q ∈ rest, readsBack ff q := fun q hq => h q (by simp [hq])
    simp [decodeItems, UnmarshalMap_productItem_readsBack ff lib p hp, ih _ hrest]

/-- The world after `Save` is the world after its one `PutItem` call. -/
theorem Save_world {σ : Type} (repo : dynamoDBRepo) (b : Backend σ) (p : Product) (w : World σ) :
    (repo.Save b p w).2 =
      (clientPutItem b { Item := productItem p, TableName := repo.tableName } w).2 := by
  unfold dynamoDBRepo.Save MarshalMap
  cases h : (b.PutItem { Item := productItem p, TableName := repo.tableName } w.db).1 <;>
    simp [clientPutItem, h]

/-- The calls after `Save` are the calls before it and one `PutItem`. -/
theorem Save_calls {σ : Type} (repo : dynamoDBRepo) (b : Backend σ) (p : Product) (w : World σ) :
    (repo.Save b p w).2.calls =
      w.calls ++ [Call.PutItem { Item := productItem p, TableName := repo.tableName }] := by
  rw [Save_world]; rfl

/-- `FindAll`, case by case on the answer of `Scan`. -/
theorem FindAll_result {σ : Type} (repo : dynamoDBRepo) (ff : FloatFormat) (lib : Lib)
    (b : Backend σ) (w : World σ) :
    (repo.FindAll ff lib b w).1 =
      match (b.Scan { TableName := repo.tableName } w.db).1 with
      | Except.error err => Outcome.ret (none, some err)
      | Except.ok items =>
        match decodeItems ff lib items [] with
        | Except.error err => Outcome.panic err
        | Except.ok products => Outcome.ret (some products, none) := by
  unfold dynamoDBRepo.FindAll
  cases h : (b.Scan { TableName := repo.tableName } w.db).1 with
  | error err => simp [clientScan, h]
  | ok items =>
    cases hd : decodeItems ff lib items [] <;> simp [clientScan, h, hd]

/-- `FindByID`, case by case on the answer of `GetItem`. -/
theorem FindByID_result {σ : Type} (repo : dynamoDBRepo) (ff : FloatFormat) (lib : Lib)
    (b : Backend σ) (id : String) (w : World σ) :
    (repo.FindByID ff lib b id w).1 =
      match (b.GetItem { TableName := repo.tableName, Key := idKey id } w.db).1 with
      | Except.error err => Outcome.ret (none, some err)
      | Except.ok item =>
        match UnmarshalMap ff lib item Product.zero with
        | Except.error err => Outcome.panic err
        | Except.ok product => Outcome.ret (some product, none) := by
  unfold dynamoDBRepo.FindByID
  cases h : (b.GetItem { TableName := repo.tableName, Key := idKey id } w.db).1 with
  | error err => simp [clientGetItem, h, print]
  | ok item =>
    cases hd : UnmarshalMap ff lib item Product.zero <;> simp [clientGetItem, h, hd, print]

/-- The list route: the handler passes on a panic of `FindAll` and otherwise
answers 200 with the JSON text of the slice `FindAll` returned. -/
theorem handleRequest_list {σ : Type} (ff : FloatFormat) (lib : Lib) (b : Backend σ)
    (draws : Nat → SeedDraw) (request : Request) (w : World σ) (h : isListRoute request) :
    (handleRequest ff lib b draws request w).1 =
      match (NewDynamoDBRepository.FindAll ff lib b w).1 with
      | Outcome.panic e => Outcome.panic e
      | Outcome.ret r =>
        Outcome.ret
          ({ Body := jsonMarshalProducts lib r.1, StatusCode := 200, Headers := corsHeaders },
            none) := by
  simp only [handleRequest, h, if_true]
  rcases hf : NewDynamoDBRepository.FindAll ff lib b w with ⟨o, w1⟩
  cases o with
  | panic e => rfl
  | ret r => rfl

/-- The fetch route: the handler passes on a panic of `FindByID` and otherwise
answers 200 with the JSON text of the pointer `FindByID` returned. -/
theorem handleRequest_get {σ : Type} (ff : FloatFormat) (lib : Lib) (b : Backend σ)
    (draws : Nat → SeedDraw) (request : Request) (w : World σ) (hl : ¬ isListRoute request)
    (h : isGetRoute request) :
    (handleRequest ff lib b draws request w).1 =
      match (NewDynamoDBRepository.FindByID ff lib b (mapGet request.PathParameters "id") w).1 with
      | Outcome.panic e => Outcome.panic e
      | Outcome.ret r =>
        Outcome.ret
          ({ Body := jsonMarshalProductPtr lib r.1, StatusCode := 200, Headers := corsHeaders },
            none) := by
  simp only [handleRequest, hl, h, if_true, if_false]
  rcases hf : NewDynamoDBRepository.FindByID ff lib b (mapGet request.PathParameters "id") w
    with ⟨o, w1⟩
  cases o with
  | panic e => rfl
  | ret r => rfl

/-- The seed route: the response and the world after the loop. -/
theorem handleRequest_seed {σ : Type} (ff : FloatFormat) (lib : Lib) (b : Backend σ)
    (draws : Nat → SeedDraw) (request : Request) (w : World σ)
    (hm : request.HTTPMethod = "POST") (hp : request.Path = "/products") :
    handleRequest ff lib b draws request w =
      (Outcome.ret
          ({ Body := "Initialize DynamoDB is complete!!!", StatusCode := 200,
             Headers := corsHeaders }, none),
        seedLoop b draws 5 1 w) := by
  have hl : ¬ isListRoute request := by simp [isListRoute, hm]
  have hg : ¬ isGetRoute request := by simp [isGetRoute, hm]
  have hs : isSeedRoute request := ⟨hm, hp⟩
  simp [handleRequest, hl, hg, hs]

/-- The delete route: the response, whatever `Delete` returned. -/
theorem handleRequest_delete {σ : Type} (ff : FloatFormat) (lib : Lib) (b : Backend σ)
    (draws : Nat → SeedDraw) (request : Request) (w : World σ)
    (hm : request.HTTPMethod = "DELETE") (hr : request.Resource = "/products/\x7bid\x7d")
    (hid : mapGet request.PathParameters "id" ≠ "") :
    handleRequest ff lib b draws request w =
      (Outcome.ret
          ({ Body := "\x7b\"message\":\"Done\"\x7d", StatusCode := 200, Headers := corsHeaders },
            none),
        (NewDynamoDBRepository.Delete b (mapGet request.PathParameters "id") w).2) := by
  have e : jsonMarshalMessage { Message := "Done" } = "\x7b\"message\":\"Done\"\x7d" := by decide
  have hl : ¬ isListRoute request := by simp [isListRoute, hm]
  have hg : ¬ isGetRoute request := by simp [isGetRoute, hm]
  have hs : ¬ isSeedRoute request := by simp [isSeedRoute, hm]
  have hd : isDeleteRoute request := ⟨hm, hr, hid⟩
  simp [handleRequest, hl, hg, hs, hd, assign, e]

/-- The update route: the response and the world after `Put`. -/
theorem handleRequest_put {σ : Type} (ff : FloatFormat) (lib : Lib) (b : Backend σ)
    (draws : Nat → SeedDraw) (request : Request) (w : World σ)
    (hm : request.HTTPMethod = "PUT") (hr : request.Resource = "/products/\x7bid\x7d")
    (hid : mapGet request.PathParameters "id" ≠ "") :
    handleRequest ff lib b draws request w =
      (Outcome.ret
          ({ Body := "\x7b\"message\":\"Done\"\x7d", StatusCode := 200, Headers := corsHeaders },
            none),
        NewDynamoDBRepository.Put lib b (mapGet request.PathParameters "id")
          (jsonUnmarshal ff request.Body Product.zero).1 w) := by
  have e : jsonMarshalMessage { Message := "Done" } = "\x7b\"message\":\"Done\"\x7d" := by decide
  have hl : ¬ isListRoute request := by simp [isListRoute, hm]
  have hg : ¬ isGetRoute request := by simp [isGetRoute, hm]
  have hs : ¬ isSeedRoute request := by simp [isSeedRoute, hm]
  have hd : ¬ isDeleteRoute request := by simp [isDeleteRoute, hm]
  have hp : isPutRoute request := ⟨hm, hr, hid⟩
  simp [handleRequest, hl, hg, hs, hd, hp, e]

/-- Every response of the five routes carries the cross-origin header. -/
theorem routed_response_carries_cors {σ : Type} (ff : FloatFormat) (lib : Lib) (b : Backend σ)
    (draws : Nat → SeedDraw) (request : Request) (w : World σ) (resp : Response)
    (err : Option Err)
    (hroute : isListRoute request ∨ isGetRoute request ∨ isSeedRoute request ∨
      isDeleteRoute request ∨ isPutRoute request)
    (h : (handleRequest ff lib b draws request w).1 = Outcome.ret (resp, err)) :
    resp.Headers.lookup "Access-Control-Allow-Origin" = some "*" := by
  by_cases h1 : isListRoute request
  · rw [handleRequest_list ff lib b draws request w h1] at h
    cases hf : (NewDynamoDBRepository.FindAll ff lib b w).1 with
    | panic e => simp [hf] at h
    | ret r =>
      simp only [hf, Outcome.ret.injEq, Prod.mk.injEq] at h
      rw [← h.1]; rfl
  by_cases h2 : isGetRoute request
  · rw [handleRequest_get ff lib b draws request w h1 h2] at h
    cases hf : (NewDynamoDBRepository.FindByID ff lib b
        (mapGet request.PathParameters "id") w).1 with
    | panic e => simp [hf] at h
    | ret r =>
      simp only [hf, Outcome.ret.injEq, Prod.mk.injEq] at h
      rw [← h.1]; rfl
  by_cases h3 : isSeedRoute request
  · rw [handleRequest_seed ff lib b draws request w h3.1 h3.2] at h
    simp only [Outcome.ret.injEq, Prod.mk.injEq] at h
    rw [← h.1]; rfl
  by_cases h4 : isDeleteRoute request
  · rw [handleRequest_delete ff lib b draws request w h4.1 h4.2.1 h4.2.2] at h
    simp only [Outcome.ret.injEq, Prod.mk.injEq] at h
    rw [← h.1]; rfl
  by_cases h5 : isPutRoute request
  · rw [handleRequest_put ff lib b draws request w h5.1 h5.2.1 h5.2.2] at h
    simp only [Outcome.ret.injEq, Prod.mk.injEq] at h
    rw [← h.1]; rfl
  · rcases hroute with h | h | h | h | h <;> contradiction

/-! ## Lemmas on the map store -/

/-- The map store answers a read of an id without record with no attributes. -/
theorem mapStore_GetItem_missing (lib : Lib) (db : List Product) (table id : String)
    (h : lookupId db id = none) :
    ((mapStore lib).GetItem { TableName := table, Key := idKey id } db).1 = Except.ok [] := by
  simp [mapStore, keyId, idKey, List.lookup, h]

/-- On the map store `FindAll` returns the stored records in order, when their
floats are `float32` values of the format. -/
theorem mapStore_FindAll (repo : dynamoDBRepo) (ff : FloatFormat) (lib : Lib)
    (w : World (List Product)) (h : ∀ p ∈ w.db, readsBack ff p) :
    (repo.FindAll ff lib (mapStore lib) w).1 = Outcome.ret (some w.db, none) := by
  rw [FindAll_result]
  simp [mapStore, decodeItems_productItem ff lib w.db [] h]

/-- On the map store `FindByID` returns the record stored under the id, with
the price and the rate as the format reads them. -/
theorem mapStore_FindByID_some (repo : dynamoDBRepo) (ff : FloatFormat) (lib : Lib)
    (id : String) (p : Product) (x y : ℚ) (w : World (List Product))
    (h : lookupId w.db id = some p) (hx : ff.parseFloat64AsFloat32 p.Price = some x)
    (hy : ff.parseFloat64AsFloat32 p.Rate = some y) :
    (repo.FindByID ff lib (mapStore lib) id w).1 =
      Outcome.ret (some { p with Price := x, Rate := y }, none) := by
  rw [FindByID_result]
  simp [mapStore, keyId, idKey, List.lookup, h, UnmarshalMap_productItem ff lib p x y hx hy]

/-- On the map store `Save` replaces the record of the same id, or adds one. -/
theorem mapStore_Save_db (repo : dynamoDBRepo) (lib : Lib) (p : Product)
    (w : World (List Product)) :
    (repo.Save (mapStore lib) p w).2.db =
      w.db.filter (fun q => decide (q.Id ≠ p.Id)) ++ [p] := by
  rw [Save_world]
  simp [clientPutItem, mapStore,
    UnmarshalMap_productItem_readsBack exactArithmetic lib p (readsBack_exactArithmetic p)]

/-- The store after the seeding loop on the map store: four writes in turn. -/
theorem mapStore_seedLoop_db (lib : Lib) (draws : Nat → SeedDraw) (w : World (List Product)) :
    (seedLoop (mapStore lib) draws 5 1 w).db =
      (((w.db.filter (fun q => decide (q.Id ≠ (seedProduct (draws 1)).Id)) ++
              [seedProduct (draws 1)]).filter
            (fun q => decide (q.Id ≠ (seedProduct (draws 2)).Id)) ++
            [seedProduct (draws 2)]).filter
          (fun q => decide (q.Id ≠ (seedProduct (draws 3)).Id)) ++
          [seedProduct (draws 3)]).filter
        (fun q => decide (q.Id ≠ (seedProduct (draws 4)).Id)) ++
        [seedProduct (draws 4)] := by
  simp only [seedLoop, show (1 : Nat) < 5 by decide, show (1 + 1 : Nat) < 5 by decide,
    show (1 + 1 + 1 : Nat) < 5 by decide, show (1 + 1 + 1 + 1 : Nat) < 5 by decide,
    show ¬ ((1 + 1 + 1 + 1 + 1 : Nat) < 5) by decide, if_true, if_false, mapStore_Save_db]

/-- Four writes in turn: a written record is still stored when no later write
has its id. -/
theorem mem_after_four_puts (db : List Product) (p1 p2 p3 p4 : Product) :
    (p2.Id ≠ p1.Id → p3.Id ≠ p1.Id → p4.Id ≠ p1.Id →
      p1 ∈ (((db.filter (fun q => decide (q.Id ≠ p1.Id)) ++ [p1]).filter
              (fun q => decide (q.Id ≠ p2.Id)) ++ [p2]).filter
            (fun q => decide (q.Id ≠ p3.Id)) ++ [p3]).filter
          (fun q => decide (q.Id ≠ p4.Id)) ++ [p4]) ∧
    (p3.Id ≠ p2.Id → p4.Id ≠ p2.Id →
      p2 ∈ (((db.filter (fun q => decide (q.Id ≠ p1.Id)) ++ [p1]).filter
              (fun q => decide (q.Id ≠ p2.Id)) ++ [p2]).filter
            (fun q => decide (q.Id ≠ p3.Id)) ++ [p3]).filter
          (fun q => decide (q.Id ≠ p4.Id)) ++ [p4]) ∧
    (p4.Id ≠ p3.Id →
      p3 ∈ (((db.filter (fun q => decide (q.Id ≠ p1.Id)) ++ [p1]).filter
              (fun q => decide (q.Id ≠ p2.Id)) ++ [p2]).filter
            (fun q => decide (q.Id ≠ p3.Id)) ++ [p3]).filter
          (fun q => decide (q.Id ≠ p4.Id)) ++ [p4]) ∧
    p4 ∈ (((db.filter (fun q => decide (q.Id ≠ p1.Id)) ++ [p1]).filter
              (fun q => decide (q.Id ≠ p2.Id)) ++ [p2]).filter
            (fun q => decide (q.Id ≠ p3.Id)) ++ [p3]).filter
          (fun q => decide (q.Id ≠ p4.Id)) ++ [p4] := by
  refine ⟨?_, ?_, ?_, ?_⟩
  · intro h2 h3 h4
    simp [List.mem_append, List.mem_filter, h2.symm, h3.symm, h4.symm]
  · intro h3 h4
    simp [List.mem_append, List.mem_filter, h3.symm, h4.symm]
  · intro h4
    simp [List.mem_append, List.mem_filter, h4.symm]
  · simp

/-- The price and rate of a seeded product, for draws in `[0, 1)`. -/
theorem seedProduct_bounds (d : SeedDraw) (h1 : 0 ≤ d.float1) (h2 : d.float1 < 1)
    (h3 : 0 ≤ d.float2) (h4 : d.float2 < 1) :
    10 ≤ (seedProduct d).Price ∧ (seedProduct d).Price < 100 ∧
      0 ≤ (seedProduct d).Rate ∧ (seedProduct d).Rate < 5 := by
  simp only [seedProduct]
  refine ⟨by linarith, by linarith, by linarith, by linarith⟩

/-- An update keeps the id of a record. -/
theorem applyUpdate_Id (id n d : String) (pr : ℚ) (q : Product) :
    (applyUpdate id n d pr q).Id = q.Id := by
  unfold applyUpdate
  split <;> rfl

/-- Reading a record after every record was passed through `applyUpdate`. -/
theorem lookupId_map_applyUpdate (db : List Product) (id n d : String) (pr : ℚ) (k : String) :
    lookupId (db.map (applyUpdate id n d pr)) k = (lookupId db k).map (applyUpdate id n d pr) := by
  induction db with
  | nil => rfl
  | cons q rest ih =>
    unfold lookupId at ih ⊢
    simp only [List.map_cons, List.find?_cons, applyUpdate_Id]
    by_cases h : q.Id = k
    · simp [h]
    · simp [h, ih]

/-- A record found under an id has that id. -/
theorem lookupId_some_Id (db : List Product) (k : String) (p : Product)
    (h : lookupId db k = some p) : p.Id = k := by
  have := List.find?_some h
  simpa using this

/-- The store after `Put` on the map store, for an id that has a record. -/
theorem mapStore_Put_db (repo : dynamoDBRepo) (lib : Lib) (id : String) (p old : Product)
    (w : World (List Product)) (hold : lookupId w.db id = some old) :
    (repo.Put lib (mapStore lib) id p w).db =
      w.db.map (applyUpdate id p.Name p.Description (sprintfF p.Price)) := by
  have hv : updateValues (putInput repo id p) = some (p.Name, p.Description, sprintfF p.Price) := by
    simp [updateValues, putInput, List.lookup]
  have hu : ((mapStore lib).UpdateItem (putInput repo id p) w.db) =
      (Except.ok [("name", AttributeValue.S p.Name), ("description", AttributeValue.S p.Description),
          ("price", AttributeValue.N (sprintfF p.Price))],
        w.db.map (applyUpdate id p.Name p.Description (sprintfF p.Price))) := by
    have hk : keyId (putInput repo id p).Key = some id := by
      simp [keyId, putInput, idKey, List.lookup]
    simp only [mapStore, hk, hv, hold, Option.isSome_some, if_true]
  simp [dynamoDBRepo.Put, clientUpdateItem, hu, print]

/-- An update followed by a fetch on the map store: name and description are
those of the body, the price is that of the body as `%f` writes it and the
format reads it back, the other fields are those of the stored record, and
every other record is as before. -/
theorem put_then_fetch (ff : FloatFormat) (lib : Lib) (draws : Nat → SeedDraw)
    (request : Request) (w : World (List Product)) (old bp : Product) (x : ℚ)
    (hm : request.HTTPMethod = "PUT") (hr : request.Resource = "/products/\x7bid\x7d")
    (hid : mapGet request.PathParameters "id" ≠ "")
    (hold : lookupId w.db (mapGet request.PathParameters "id") = some old)
    (hrate : ff.parseFloat64AsFloat32 old.Rate = some old.Rate)
    (hbody : jsonUnmarshal ff request.Body Product.zero = (bp, none))
    (hprice : ff.parseFloat64AsFloat32 (sprintfF bp.Price) = some x) :
    (NewDynamoDBRepository.FindByID ff lib (mapStore lib) (mapGet request.PathParameters "id")
        (handleRequest ff lib (mapStore lib) draws request w).2).1 =
      Outcome.ret
        (some { old with Name := bp.Name, Description := bp.Description, Price := x }, none) ∧
    ∀ k, k ≠ mapGet request.PathParameters "id" →
      lookupId (handleRequest ff lib (mapStore lib) draws request w).2.db k = lookupId w.db k := by
  rw [handleRequest_put ff lib _ draws request w hm hr hid]
  simp only [hbody]
  have hdb := mapStore_Put_db NewDynamoDBRepository lib (mapGet request.PathParameters "id")
    bp old w hold
  have hId : old.Id = mapGet request.PathParameters "id" := lookupId_some_Id _ _ _ hold
  constructor
  · have hl : lookupId (NewDynamoDBRepository.Put lib (mapStore lib)
        (mapGet request.PathParameters "id") bp w).db (mapGet request.PathParameters "id") =
        some { old with Name := bp.Name, Description := bp.Description,
                        Price := sprintfF bp.Price } := by
      rw [hdb, lookupId_map_applyUpdate, hold]
      simp [applyUpdate, hId]
    rw [mapStore_FindByID_some NewDynamoDBRepository ff lib _ _ x old.Rate _ hl hprice hrate]
  · intro k hk
    rw [hdb, lookupId_map_applyUpdate]
    cases hl : lookupId w.db k with
    | none => rfl
    | some q =>
      have hq : q.Id = k := lookupId_some_Id _ _ _ hl
      simp [applyUpdate, hq, hk]

/-- The update of the specification example, followed by a fetch: the price
42.0 is written and read back as it is. -/
theorem put_then_fetch_example :
    lookupId [sampleProduct] "X" = some sampleProduct ∧
    (NewDynamoDBRepository.FindByID ieee sampleLib (mapStore sampleLib) "X"
        (handleRequest ieee sampleLib (mapStore sampleLib) sampleDraws
          (mkRequest "PUT" "/products/X" "/products/\x7bid\x7d" [("id", "X")]
            "\x7b\"name\":\"A\",\"description\":\"B\",\"price\":42.0,\"rate\":9.9,\"image\":\"http://x\"\x7d")
          (freshWorld [sampleProduct])).2).1 =
      Outcome.ret
        (some { Id := "X", Name := "A", Description := "B", Price := 42, Rate := 3,
                Image := "http://img" }, none) := by
  constructor
  · decide
  · decide!

/-- An item whose price is beyond the range of `float32` makes the list route
and the fetch route panic. -/
theorem overflow_item_panics :
    (handleRequest ieee sampleLib (servingBackend overflowItem) sampleDraws
        (mkRequest "GET" "/products" "/products" [] "") (freshWorld ())).1 =
      Outcome.panic
        ("UnmarshalTypeError: cannot unmarshal number overflow, " ++
          "1000000000000000000000000000000000000000 into Go value of type float32") ∧
    (handleRequest ieee sampleLib (servingBackend overflowItem) sampleDraws
        (mkRequest "GET" "/products/X" "/products/\x7bid\x7d" [("id", "X")] "")
        (freshWorld ())).1 =
      Outcome.panic
        ("UnmarshalTypeError: cannot unmarshal number overflow, " ++
          "1000000000000000000000000000000000000000 into Go value of type float32") := by
  constructor
  · decide!
  · decide!

/-- A body whose price is beyond the range of `float32` fails to deserialize;
the name it carries is stored all the same. -/
theorem overflow_body_fails :
    jsonUnmarshal ieee "\x7b\"price\":1e39,\"name\":\"A\"\x7d" Product.zero =
      ({ Id := "", Name := "A", Description := "", Price := 0, Rate := 0, Image := "" },
        some "json: cannot unmarshal number 1e39 into Go struct field Product.price of type float32") := by
  decide!

/-! ## The claims -/

/-- Claim C1: a request that satisfies none of the five route conditions
makes no call to the table store (the world, with its call log, is unchanged)
and `handleRequest` returns a nil error with a response of status 404 whose
body is the JSON serialization of the request. -/
theorem unmatched_route_echoes_request {σ : Type} (ff : FloatFormat) (lib : Lib)
    (b : Backend σ) (draws : Nat → SeedDraw) (request : Request) (w : World σ)
    (h1 : ¬ isListRoute request) (h2 : ¬ isGetRoute request) (h3 : ¬ isSeedRoute request)
    (h4 : ¬ isDeleteRoute request) (h5 : ¬ isPutRoute request) :
    (handleRequest ff lib b draws request w).1 =
        Outcome.ret ({ Body := lib.jsonMarshalRequest request, StatusCode := 404 }, none) ∧
      (handleRequest ff lib b draws request w).2 = w := by
  simp [handleRequest, h1, h2, h3, h4, h5]

/-- Claim C1 on a `PATCH` request. -/
theorem unmatched_route_echoes_request_witness :
    (¬ isListRoute (mkRequest "PATCH" "/products" "/products" [] "")) ∧
    (¬ isGetRoute (mkRequest "PATCH" "/products" "/products" [] "")) ∧
    (¬ isSeedRoute (mkRequest "PATCH" "/products" "/products" [] "")) ∧
    (¬ isDeleteRoute (mkRequest "PATCH" "/products" "/products" [] "")) ∧
    (¬ isPutRoute (mkRequest "PATCH" "/products" "/products" [] "")) ∧
    ((handleRequest ieee sampleLib failingBackend sampleDraws
        (mkRequest "PATCH" "/products" "/products" [] "") (freshWorld ())).1 =
        Outcome.ret
          ({ Body := sampleLib.jsonMarshalRequest (mkRequest "PATCH" "/products" "/products" [] ""),
             StatusCode := 404 }, none) ∧
      (handleRequest ieee sampleLib failingBackend sampleDraws
        (mkRequest "PATCH" "/products" "/products" [] "") (freshWorld ())).2 = freshWorld ()) :=
  ⟨by decide, by decide, by decide, by decide, by decide,
    unmatched_route_echoes_request ieee sampleLib failingBackend sampleDraws
      (mkRequest "PATCH" "/products" "/products" [] "") (freshWorld ())
      (by decide) (by decide) (by decide) (by decide) (by decide)⟩

/-- Claim C3: for a `GET` on resource `/products/{id}` with a non-empty id for
which the table store returns no attributes (there is no record), `FindByID`
returns the zero-valued product and a nil error, and the response is status
200 with the JSON object of the zero-valued product. -/
theorem get_missing_id_returns_zero_product {σ : Type} (ff : FloatFormat) (lib : Lib)
    (b : Backend σ) (draws : Nat → SeedDraw) (request : Request) (w : World σ)
    (hm : request.HTTPMethod = "GET") (hr : request.Resource = "/products/\x7bid\x7d")
    (hid : mapGet request.PathParameters "id" ≠ "")
    (hget : (b.GetItem { TableName := "Product",
                         Key := idKey (mapGet request.PathParameters "id") } w.db).1 =
              Except.ok []) :
    (NewDynamoDBRepository.FindByID ff lib b (mapGet request.PathParameters "id") w).1 =
        Outcome.ret (some Product.zero, none) ∧
      (handleRequest ff lib b draws request w).1 =
        Outcome.ret
          ({ Body := lib.jsonMarshalProduct Product.zero, StatusCode := 200,
             Headers := corsHeaders }, none) := by
  have hl : ¬ isListRoute request := fun h => hid h.2.2
  have hg : isGetRoute request := ⟨hm, hr, hid⟩
  have hf : (NewDynamoDBRepository.FindByID ff lib b (mapGet request.PathParameters "id") w).1 =
      Outcome.ret (some Product.zero, none) := by
    rw [FindByID_result]
    simp [NewDynamoDBRepository, hget, UnmarshalMap]
  refine ⟨hf, ?_⟩
  rw [handleRequest_get ff lib b draws request w hl hg, hf]
  rfl

/-- Claim C3 on a map store that has no record under the id `Q`. -/
theorem get_missing_id_returns_zero_product_witness :
    (mkRequest "GET" "/products/Q" "/products/\x7bid\x7d" [("id", "Q")] "").HTTPMethod = "GET" ∧
    (mkRequest "GET" "/products/Q" "/products/\x7bid\x7d" [("id", "Q")] "").Resource =
      "/products/\x7bid\x7d" ∧
    mapGet (mkRequest "GET" "/products/Q" "/products/\x7bid\x7d" [("id", "Q")] "").PathParameters
      "id" ≠ "" ∧
    lookupId [sampleProduct] "Q" = none ∧
    ((NewDynamoDBRepository.FindByID ieee sampleLib (mapStore sampleLib)
        (mapGet (mkRequest "GET" "/products/Q" "/products/\x7bid\x7d" [("id", "Q")]
          "").PathParameters "id") (freshWorld [sampleProduct])).1 =
        Outcome.ret (some Product.zero, none) ∧
      (handleRequest ieee sampleLib (mapStore sampleLib) sampleDraws
        (mkRequest "GET" "/products/Q" "/products/\x7bid\x7d" [("id", "Q")] "")
        (freshWorld [sampleProduct])).1 =
        Outcome.ret
          ({ Body := sampleLib.jsonMarshalProduct Product.zero, StatusCode := 200,
             Headers := corsHeaders }, none)) :=
  ⟨rfl, rfl, by decide, by decide,
    get_missing_id_returns_zero_product ieee sampleLib (mapStore sampleLib) sampleDraws
      (mkRequest "GET" "/products/Q" "/products/\x7bid\x7d" [("id", "Q")] "")
      (freshWorld [sampleProduct]) rfl rfl (by decide)
      (mapStore_GetItem_missing sampleLib [sampleProduct] "Product" "Q" (by decide))⟩

/-- Claim C4 at a failing input: on the map store holding a record `X`, the
update with the well-formed body of price 0.0000001 followed by a fetch of `X`
yields price 0, not the price of the body (the `float32` nearest to
0.0000001): `Put` writes the price with `%f`, that is with six decimals. -/
theorem put_loses_price_below_a_millionth :
    jsonUnmarshal ieee "\x7b\"name\":\"A\",\"description\":\"B\",\"price\":0.0000001\x7d"
        Product.zero =
      ({ Id := "", Name := "A", Description := "B", Price := 14073749 / 140737488355328,
         Rate := 0, Image := "" }, none) ∧
    (NewDynamoDBRepository.FindByID ieee sampleLib (mapStore sampleLib) "X"
        (handleRequest ieee sampleLib (mapStore sampleLib) sampleDraws
          (mkRequest "PUT" "/products/X" "/products/\x7bid\x7d" [("id", "X")]
            "\x7b\"name\":\"A\",\"description\":\"B\",\"price\":0.0000001\x7d")
          (freshWorld [sampleProduct])).2).1 =
      Outcome.ret
        (some { Id := "X", Name := "A", Description := "B", Price := 0, Rate := 3,
                Image := "http://img" }, none) ∧
    (0 : ℚ) ≠ 14073749 / 140737488355328 := by
  refine ⟨?_, ?_, by norm_num⟩
  · decide!
  · decide!

/-- Claim C5: for a `DELETE` on resource `/products/{id}` with a non-empty id,
whatever the table store answers to the delete, `handleRequest` returns a nil
error and the response of status 200 with body `{"message":"Done"}`; the
status-400 response is never the one returned. -/
theorem delete_always_reports_done {σ : Type} (ff : FloatFormat) (lib : Lib) (b : Backend σ)
    (draws : Nat → SeedDraw) (request : Request) (w : World σ)
    (hm : request.HTTPMethod = "DELETE") (hr : request.Resource = "/products/\x7bid\x7d")
    (hid : mapGet request.PathParameters "id" ≠ "") :
    (handleRequest ff lib b draws request w).1 =
        Outcome.ret
          ({ Body := "\x7b\"message\":\"Done\"\x7d", StatusCode := 200, Headers := corsHeaders },
            none) := by
  rw [handleRequest_delete ff lib b draws request w hm hr hid]

/-- Claim C5 on a table store whose delete fails. -/
theorem delete_always_reports_done_witness :
    (mkRequest "DELETE" "/products/Q" "/products/\x7bid\x7d" [("id", "Q")] "").HTTPMethod =
      "DELETE" ∧
    (mkRequest "DELETE" "/products/Q" "/products/\x7bid\x7d" [("id", "Q")] "").Resource =
      "/products/\x7bid\x7d" ∧
    mapGet (mkRequest "DELETE" "/products/Q" "/products/\x7bid\x7d" [("id", "Q")]
      "").PathParameters "id" ≠ "" ∧
    (NewDynamoDBRepository.Delete failingBackend "Q" (freshWorld ())).1 = some "RequestError" ∧
    (handleRequest ieee sampleLib failingBackend sampleDraws
        (mkRequest "DELETE" "/products/Q" "/products/\x7bid\x7d" [("id", "Q")] "")
        (freshWorld ())).1 =
      Outcome.ret
        ({ Body := "\x7b\"message\":\"Done\"\x7d", StatusCode := 200, Headers := corsHeaders },
          none) :=
  ⟨rfl, rfl, by decide, rfl,
    delete_always_reports_done ieee sampleLib failingBackend sampleDraws
      (mkRequest "DELETE" "/products/Q" "/products/\x7bid\x7d" [("id", "Q")] "")
      (freshWorld ()) rfl rfl (by decide)⟩

/-- Claim C6: for a `POST` on path `/products`, `handleRequest` makes exactly
four calls to the table store, one `PutItem` per synthesized product and in
loop order, and returns status 200 with the body
`Initialize DynamoDB is complete!!!`, whatever the store answers to the
writes. -/
theorem seed_issues_four_puts {σ : Type} (ff : FloatFormat) (lib : Lib) (b : Backend σ)
    (draws : Nat → SeedDraw) (request : Request) (w : World σ)
    (hm : request.HTTPMethod = "POST") (hp : request.Path = "/products") :
    (handleRequest ff lib b draws request w).1 =
        Outcome.ret
          ({ Body := "Initialize DynamoDB is complete!!!", StatusCode := 200,
             Headers := corsHeaders }, none) ∧
      (handleRequest ff lib b draws request w).2.calls =
        w.calls ++
          [Call.PutItem { Item := productItem (seedProduct (draws 1)), TableName := "Product" },
           Call.PutItem { Item := productItem (seedProduct (draws 2)), TableName := "Product" },
           Call.PutItem { Item := productItem (seedProduct (draws 3)), TableName := "Product" },
           Call.PutItem { Item := productItem (seedProduct (draws 4)), TableName := "Product" }] := by
  rw [handleRequest_seed ff lib b draws request w hm hp]
  simp [seedLoop, Save_calls, NewDynamoDBRepository]

/-- Claim C6 on a table store whose writes fail. -/
theorem seed_issues_four_puts_witness :
    (mkRequest "POST" "/products" "/products" [] "").HTTPMethod = "POST" ∧
    (mkRequest "POST" "/products" "/products" [] "").Path = "/products" ∧
    (failingBackend.PutItem
      { Item := productItem (seedProduct (sampleDraws 1)), TableName := "Product" } ()).1 =
      Except.error "RequestError" ∧
    ((handleRequest ieee sampleLib failingBackend sampleDraws
        (mkRequest "POST" "/products" "/products" [] "") (freshWorld ())).1 =
        Outcome.ret
          ({ Body := "Initialize DynamoDB is complete!!!", StatusCode := 200,
             Headers := corsHeaders }, none) ∧
      (handleRequest ieee sampleLib failingBackend sampleDraws
        (mkRequest "POST" "/products" "/products" [] "") (freshWorld ())).2.calls =
        (freshWorld ()).calls ++
          [Call.PutItem
             { Item := productItem (seedProduct (sampleDraws 1)), TableName := "Product" },
           Call.PutItem
             { Item := productItem (seedProduct (sampleDraws 2)), TableName := "Product" },
           Call.PutItem
             { Item := productItem (seedProduct (sampleDraws 3)), TableName := "Product" },
           Call.PutItem
             { Item := productItem (seedProduct (sampleDraws 4)), TableName := "Product" }]) :=
  ⟨rfl, rfl, rfl,
    seed_issues_four_puts ieee sampleLib failingBackend sampleDraws
      (mkRequest "POST" "/products" "/products" [] "") (freshWorld ()) rfl rfl⟩

/-- Listing after one seed operation on the map store, for any float format in
which the stored and the seeded prices and rates are `float32` values: every
seeded record whose id is not drawn again later is listed. -/
theorem seed_then_list_any_format (ff : FloatFormat) (lib : Lib) (draws : Nat → SeedDraw)
    (request : Request) (w : World (List Product))
    (hm : request.HTTPMethod = "POST") (hp : request.Path = "/products")
    (hstore : ∀ p ∈ w.db, readsBack ff p)
    (hseed : ∀ i ∈ [1, 2, 3, 4], readsBack ff (seedProduct (draws i))) :
    ∃ ps, (NewDynamoDBRepository.FindAll ff lib (mapStore lib)
          (handleRequest ff lib (mapStore lib) draws request w).2).1 =
        Outcome.ret (some ps, none) ∧
      ∀ i ∈ [1, 2, 3, 4],
        (∀ j ∈ [1, 2, 3, 4], i < j → (draws j).word1 ≠ (draws i).word1) →
        seedProduct (draws i) ∈ ps := by
  have hall : ∀ p ∈ (handleRequest ff lib (mapStore lib) draws request w).2.db,
      readsBack ff p := by
    rw [handleRequest_seed ff lib _ draws request w hm hp]
    simp only [mapStore_seedLoop_db]
    intro p hp
    simp only [List.mem_append, List.mem_filter, List.mem_singleton] at hp
    rcases hp with ⟨(⟨(⟨(⟨h0, _⟩ | rfl), _⟩ | rfl), _⟩ | rfl), _⟩ | rfl
    · exact hstore p h0
    · exact hseed 1 (by simp)
    · exact hseed 2 (by simp)
    · exact hseed 3 (by simp)
    · exact hseed 4 (by simp)
  refine ⟨_, mapStore_FindAll _ ff lib _ hall, ?_⟩
  rw [handleRequest_seed ff lib _ draws request w hm hp]
  simp only [mapStore_seedLoop_db]
  obtain ⟨m1, m2, m3, m4⟩ := mem_after_four_puts w.db (seedProduct (draws 1))
    (seedProduct (draws 2)) (seedProduct (draws 3)) (seedProduct (draws 4))
  intro i hi hlater
  have h2 := hlater 2 (by simp)
  have h3 := hlater 3 (by simp)
  have h4 := hlater 4 (by simp)
  simp only [List.mem_cons, List.mem_singleton, List.not_mem_nil, or_false] at hi
  rcases hi with rfl | rfl | rfl | rfl
  · exact m1 (h2 (by decide)) (h3 (by decide)) (h4 (by decide))
  · exact m2 (h3 (by decide)) (h4 (by decide))
  · exact m3 (h4 (by decide))
  · exact m4

/-- Claim C7, amended: on the map store and in exact arithmetic, for every
initial store and all draws with the floats in `[0, 1)`, listing after one
seed operation returns every seeded record whose id is not drawn again by a
later iteration of the same seed (all four when the four ids are pairwise
distinct), and each seeded record has its price in `[10, 100)` and its rate in
`[0, 5)`. -/
theorem seed_then_list (lib : Lib) (draws : Nat → SeedDraw) (request : Request)
    (w : World (List Product))
    (hm : request.HTTPMethod = "POST") (hp : request.Path = "/products")
    (hdraw : ∀ i ∈ [1, 2, 3, 4], 0 ≤ (draws i).float1 ∧ (draws i).float1 < 1 ∧
      0 ≤ (draws i).float2 ∧ (draws i).float2 < 1) :
    ∃ ps, (NewDynamoDBRepository.FindAll exactArithmetic lib (mapStore lib)
          (handleRequest exactArithmetic lib (mapStore lib) draws request w).2).1 =
        Outcome.ret (some ps, none) ∧
      (∀ i ∈ [1, 2, 3, 4],
        (∀ j ∈ [1, 2, 3, 4], i < j → (draws j).word1 ≠ (draws i).word1) →
        seedProduct (draws i) ∈ ps) ∧
      (∀ i ∈ [1, 2, 3, 4],
        10 ≤ (seedProduct (draws i)).Price ∧ (seedProduct (draws i)).Price < 100 ∧
        0 ≤ (seedProduct (draws i)).Rate ∧ (seedProduct (draws i)).Rate < 5) := by
  refine ⟨_, mapStore_FindAll _ exactArithmetic lib _
    (fun p _ => readsBack_exactArithmetic p), ?_, ?_⟩
  · rw [handleRequest_seed exactArithmetic lib _ draws request w hm hp]
    simp only [mapStore_seedLoop_db]
    obtain ⟨m1, m2, m3, m4⟩ := mem_after_four_puts w.db (seedProduct (draws 1))
      (seedProduct (draws 2)) (seedProduct (draws 3)) (seedProduct (draws 4))
    intro i hi hlater
    have h2 := hlater 2 (by simp)
    have h3 := hlater 3 (by simp)
    have h4 := hlater 4 (by simp)
    simp only [List.mem_cons, List.mem_singleton, List.not_mem_nil, or_false] at hi
    rcases hi with rfl | rfl | rfl | rfl
    · exact m1 (h2 (by decide)) (h3 (by decide)) (h4 (by decide))
    · exact m2 (h3 (by decide)) (h4 (by decide))
    · exact m3 (h4 (by decide))
    · exact m4
  · intro i hi
    obtain ⟨h1, h2, h3, h4⟩ := hdraw i hi
    exact seedProduct_bounds _ h1 h2 h3 h4

/-- Claim C7, amended, on draws with four distinct ids and a store that holds
one product. -/
theorem seed_then_list_witness :
    (mkRequest "POST" "/products" "/products" [] "").HTTPMethod = "POST" ∧
    (mkRequest "POST" "/products" "/products" [] "").Path = "/products" ∧
    (∀ i ∈ [1, 2, 3, 4], 0 ≤ (sampleDraws i).float1 ∧ (sampleDraws i).float1 < 1 ∧
      0 ≤ (sampleDraws i).float2 ∧ (sampleDraws i).float2 < 1) ∧
    (∀ j ∈ [1, 2, 3, 4], 1 < j → (sampleDraws j).word1 ≠ (sampleDraws 1).word1) ∧
    ∃ ps, (NewDynamoDBRepository.FindAll exactArithmetic sampleLib (mapStore sampleLib)
          (handleRequest exactArithmetic sampleLib (mapStore sampleLib) sampleDraws
            (mkRequest "POST" "/products" "/products" [] "")
            (freshWorld [sampleProduct])).2).1 = Outcome.ret (some ps, none) ∧
      (∀ i ∈ [1, 2, 3, 4],
        (∀ j ∈ [1, 2, 3, 4], i < j → (sampleDraws j).word1 ≠ (sampleDraws i).word1) →
        seedProduct (sampleDraws i) ∈ ps) ∧
      (∀ i ∈ [1, 2, 3, 4],
        10 ≤ (seedProduct (sampleDraws i)).Price ∧ (seedProduct (sampleDraws i)).Price < 100 ∧
        0 ≤ (seedProduct (sampleDraws i)).Rate ∧ (seedProduct (sampleDraws i)).Rate < 5) :=
  ⟨rfl, rfl,
    fun i _ => by simp only [sampleDraws]; norm_num,
    by decide,
    seed_then_list sampleLib sampleDraws (mkRequest "POST" "/products" "/products" [] "")
      (freshWorld [sampleProduct]) rfl rfl (fun i _ => by simp only [sampleDraws]; norm_num)⟩

/-- Claim C7 fails as stated: when the four draws give the same id, each write
overwrites the one before, and listing after the seed on an empty store
returns the fourth seeded record alone; the first is not listed. -/
theorem seed_with_equal_ids_keeps_one_record :
    (∀ i ∈ [1, 2, 3, 4], 0 ≤ (collidingDraws i).float1 ∧ (collidingDraws i).float1 < 1 ∧
      0 ≤ (collidingDraws i).float2 ∧ (collidingDraws i).float2 < 1) ∧
    (NewDynamoDBRepository.FindAll exactArithmetic sampleLib (mapStore sampleLib)
        (handleRequest exactArithmetic sampleLib (mapStore sampleLib) collidingDraws
          (mkRequest "POST" "/products" "/products" [] "") (freshWorld [])).2).1 =
      Outcome.ret (some [seedProduct (collidingDraws 4)], none) ∧
    seedProduct (collidingDraws 1) ∉ [seedProduct (collidingDraws 4)] := by
  refine ⟨fun i _ => by simp only [collidingDraws]; norm_num, ?_, ?_⟩
  · rw [mapStore_FindAll _ exactArithmetic _ _ (fun p _ => readsBack_exactArithmetic p),
      handleRequest_seed _ _ _ _ _ _ rfl rfl, mapStore_seedLoop_db]
    simp [freshWorld, seedProduct, collidingDraws]
  · simp only [seedProduct, collidingDraws, List.mem_singleton, Product.mk.injEq, not_and]
    intro _ h
    exact absurd h (by decide)

/-- Claim C8 at a failing input: the response to a `PATCH` request, which
matches none of the five routes, has an empty header map, so it carries no
`Access-Control-Allow-Origin` header. -/
theorem unmatched_response_has_no_cors_header :
    (handleRequest ieee sampleLib failingBackend sampleDraws
        (mkRequest "PATCH" "/products" "/products" [] "") (freshWorld ())).1 =
      Outcome.ret
        ({ Body := sampleLib.jsonMarshalRequest (mkRequest "PATCH" "/products" "/products" [] ""),
           StatusCode := 404, Headers := [] }, none) ∧
    ([] : List (String × String)).lookup "Access-Control-Allow-Origin" = none := by
  constructor
  · simp [handleRequest, isListRoute, isGetRoute, isSeedRoute, isDeleteRoute, isPutRoute, mkRequest]
  · rfl

end ProductApi
